import Mathlib

/-!
Verification of the etz news-aggregation server against its specification.

The development shallowly embeds the code of src/server.js (Extractor and
Aggregator) and src/backend/server.js (Cache and the /api/news handler).
Dates are represented by their epoch-day ordinal: the code stores each item
date as a canonical YYYY-MM-DD string and every use re-parses it with dayjs
and compares millisecond values, which are the ordinal times 86400000, so
ordinal comparisons coincide with the comparisons the code performs.
Network and DOM effects are embedded as data: an HTTP outcome is either a
response (status, statusText, parsed element list) or a network-level
failure, and each DOM element is the record of what the four selectors and
the URL resolution yield on it.
-/

namespace Etz

/-- A calendar date as the strict dayjs parse produces it. -/
structure ParsedDate where
  year : Nat
  month : Nat
  day : Nat
  deriving Repr, DecidableEq

/-- Gregorian leap-year rule, as dayjs validity checking applies it. -/
def isLeapYear (y : Nat) : Bool :=
  (y % 4 == 0 && y % 100 != 0) || (y % 400 == 0)

/-- Days in a month of a given year. -/
def daysInMonth (y m : Nat) : Nat :=
  if m == 2 then (if isLeapYear y then 29 else 28)
  else if m == 4 || m == 6 || m == 9 || m == 11 then 30
  else 31

/-- Validity of a parsed date: dayjs strict parsing rejects a string whose
fields do not denote a real calendar date. -/
def ParsedDate.isValid (d : ParsedDate) : Bool :=
  1 ≤ d.month && d.month ≤ 12 && 1 ≤ d.day && d.day ≤ daysInMonth d.year d.month

/-- Epoch-day ordinal (days since 1970-01-01) of a calendar date, the
standard civil-calendar formula. dayjs valueOf of a YYYY-MM-DD string is
this ordinal times 86400000 (plus a fixed zone offset), so the ordinal
order is the order the code compares by. -/
def ParsedDate.toOrdinal (dt : ParsedDate) : Int :=
  let y : Int := (Int.ofNat dt.year) - (if dt.month ≤ 2 then 1 else 0)
  let m : Int := Int.ofNat dt.month
  let d : Int := Int.ofNat dt.day
  let era : Int := (if 0 ≤ y then y else y - 399) / 400
  let yoe : Int := y - era * 400
  let doy : Int := (153 * (m + (if 2 < m then (-3 : Int) else 9)) + 2) / 5 + d - 1
  let doe : Int := yoe * 365 + yoe / 4 - yoe / 100 + doy
  era * 146097 + doe - 719468

/-- Value of a decimal digit character, none for a non-digit. -/
def digitVal (c : Char) : Option Nat :=
  if c.isDigit then some (c.toNat - 48) else none

/-- Read exactly four digits. -/
def parse4 : List Char → Option (Nat × List Char)
  | a :: b :: c :: d :: rest =>
    match digitVal a, digitVal b, digitVal c, digitVal d with
    | some w, some x, some y, some z => some (w * 1000 + x * 100 + y * 10 + z, rest)
    | _, _, _, _ => none
  | _ => none

/-- Read exactly two digits. -/
def parse2 : List Char → Option (Nat × List Char)
  | a :: b :: rest =>
    match digitVal a, digitVal b with
    | some x, some y => some (x * 10 + y, rest)
    | _, _ => none
  | _ => none

/-- Consume one expected character. -/
def expectChar (c : Char) : List Char → Option (List Char)
  | x :: rest => if x = c then some rest else none
  | [] => none

/-- Strict match of the pattern YYYY sep MM sep DD against the whole input,
with validity checking, as dayjs strict parsing does for the numeric
formats of the source (line 109 of src/server.js). -/
def matchSepFormat (sep : Char) (cs : List Char) : Option ParsedDate := do
  let (y, cs) ← parse4 cs
  let cs ← expectChar sep cs
  let (m, cs) ← parse2 cs
  let cs ← expectChar sep cs
  let (d, cs) ← parse2 cs
  match cs with
  | [] =>
    let dt : ParsedDate := ⟨y, m, d⟩
    if dt.isValid then some dt else none
  | _ => none

/-- Strict match of the localized long form (YYYY年MM月DD日). -/
def matchCJKFormat (cs : List Char) : Option ParsedDate := do
  let (y, cs) ← parse4 cs
  let cs ← expectChar ('年') cs
  let (m, cs) ← parse2 cs
  let cs ← expectChar ('月') cs
  let (d, cs) ← parse2 cs
  let cs ← expectChar ('日') cs
  match cs with
  | [] =>
    let dt : ParsedDate := ⟨y, m, d⟩
    if dt.isValid then some dt else none
  | _ => none

/-- The fixed ordered format list of the source: numeric-slash,
numeric-dash, numeric-dot, then the localized long form; the first strict
match wins (dayjs(dateText, [...], true) at src/server.js line 109). -/
def parseDateStrict (s : String) : Option ParsedDate :=
  let cs := s.toList
  (matchSepFormat ('/') cs).orElse fun _ =>
  (matchSepFormat ('-') cs).orElse fun _ =>
  (matchSepFormat ('.') cs).orElse fun _ =>
  matchCJKFormat cs

/-- One normalized extracted record; date is the epoch-day ordinal of the
canonical YYYY-MM-DD string the code stores. -/
structure NewsItem where
  source : String
  title : String
  url : String
  date : Int
  deriving Repr, DecidableEq

/-- One element matched by itemSelector, embedded as the record of what the
sub-element selectors and the URL resolution yield on it:
dateText is the trimmed text of the date sub-element when one is found;
hasTitle / hasHref record whether the title / href sub-elements are found;
titleAttr is the title attribute of the title element when set;
titleText its trimmed text; resolvedUrl the absolute URL that resolving
the href attribute against the source URL yields, none when that
resolution throws (the per-element try/catch then skips the element). -/
structure RawElement where
  dateText : Option String
  hasTitle : Bool
  titleAttr : Option String
  titleText : String
  hasHref : Bool
  resolvedUrl : Option String
  deriving Repr, DecidableEq

/-- titleElement.attr(title) || titleElement.text().trim(): an empty title
attribute is falsy in JS, so the trimmed text is used as fallback. -/
def elementTitle (e : RawElement) : String :=
  match e.titleAttr with
  | some a => if a = "" then e.titleText else a
  | none => e.titleText

/-- Per-element processing of src/server.js lines 100-136: skip (none) when
the date element is missing, its text matches no strict format, the title
or href element is missing, or URL resolution throws; otherwise build the
item. -/
def processElement (sourceTitle : String) (e : RawElement) : Option NewsItem :=
  match e.dateText with
  | none => none
  | some t =>
    match parseDateStrict t with
    | none => none
    | some dt =>
      if e.hasTitle && e.hasHref then
        match e.resolvedUrl with
        | none => none
        | some u => some ⟨sourceTitle, elementTitle e, u, dt.toOrdinal⟩
      else none

/-- The each-loop over the elements itemSelector matched: every element is
processed independently and the failures are dropped. -/
def extractItems (sourceTitle : String) (doc : List RawElement) : List NewsItem :=
  doc.filterMap (processElement sourceTitle)

/-- Outcome of the axios GET of one source: a response (any status below
400 resolves, a status of 400 or above rejects with the response attached)
or a network-level failure with its message. -/
inductive HttpOutcome where
  | response (status : Nat) (statusText : String) (doc : List RawElement)
  | netError (message : String)
  deriving Repr, DecidableEq

/-- src/server.js fetchContent, lines 74-154: with validateStatus status
below 400 axios resolves, then only a status of exactly 200 is parsed and
any other resolved status is thrown as HTTP status without statusText; a
rejected status of 400 or above carries error.response and so the message
with statusText; a network failure carries its own message. Every failure
is rethrown as the single source-level fetch error. -/
def fetchContent (title : String) (o : HttpOutcome) : Except String (List NewsItem) :=
  match o with
  | .netError msg => .error ("抓取失败 (" ++ msg ++ ")")
  | .response status statusText doc =>
    if status < 400 then
      if status == 200 then .ok (extractItems title doc)
      else .error ("抓取失败 (HTTP status: " ++ toString status ++ ")")
    else .error ("抓取失败 (HTTP status: " ++ toString status ++ " - " ++ statusText ++ ")")

/-- A point in time: an epoch-day number and the milliseconds elapsed since
that day's local midnight. dayjs valueOf of it is day * 86400000 + ms. -/
structure Instant where
  day : Int
  ms : Nat
  deriving Repr, DecidableEq

/-- dayjs startOf day: same day, midnight. -/
def Instant.startOfDay (t : Instant) : Instant := ⟨t.day, 0⟩

/-- dayjs subtract n day: n whole days earlier, same time of day. -/
def Instant.subtractDays (t : Instant) (n : Int) : Instant := ⟨t.day - n, t.ms⟩

/-- dayjs valueOf of an instant, in milliseconds. -/
def Instant.valueOf (t : Instant) : Int := t.day * 86400000 + Int.ofNat t.ms

/-- dayjs(item.date).isAfter(t): the item date string denotes local
midnight of its day, so its valueOf is the ordinal times 86400000. -/
def dateIsAfter (d : Int) (t : Instant) : Bool :=
  decide (d * 86400000 > t.valueOf)

/-- Stable insertion step for the descending-by-date sort: x goes in front
of the first element whose date is not above its own, so among equal dates
the earlier element of the input stays first. -/
def insertByDateDesc (x : NewsItem) : List NewsItem → List NewsItem
  | [] => [x]
  | y :: ys => if y.date ≤ x.date then x :: y :: ys else y :: insertByDateDesc x ys

/-- allItems.sort((a, b) => dayjs(b.date).valueOf() - dayjs(a.date).valueOf())
(src/server.js line 179): Array.prototype.sort is stable, and a stable sort
under this comparator is exactly the descending-by-date order with equal
dates in input order, which this insertion sort computes. -/
def sortByDateDesc : List NewsItem → List NewsItem
  | [] => []
  | x :: xs => insertByDateDesc x (sortByDateDesc xs)

/-- One source as the Aggregator runs it: its configured title together
with the outcome of its HTTP fetch. -/
structure SourceRun where
  title : String
  outcome : HttpOutcome
  deriving Repr, DecidableEq

/-- One entry of the errors list of an aggregate run. -/
structure SourceError where
  source : String
  error : String
  timestamp : String
  deriving Repr, DecidableEq

/-- The object fetchAllData of src/server.js builds (lines 184-190). The
errors field is an Option because line 188 sets it to undefined (the field
is omitted on the wire) when no source failed; partialSuccess is a plain
Bool because line 189 always sets it, to the conjunction shown there. -/
structure AggregateResult where
  updateTime : String
  total : Nat
  allItems : List NewsItem
  errors : Option (List SourceError)
  partialSuccess : Bool
  deriving Repr, DecidableEq

/-- The per-source mapper of src/server.js lines 163-176: the fetch result,
or on failure an empty item list together with the error entry
{source, error, timestamp} that the catch pushes. -/
def runSource (nowIso : String) (s : SourceRun) : List NewsItem × Option SourceError :=
  match fetchContent s.title s.outcome with
  | .ok items => (items, none)
  | .error msg => ([], some ⟨s.title, msg, nowIso⟩)

/-- The item lists the fan-out produces, in source order. -/
def sourceItems (nowIso : String) (runs : List SourceRun) : List (List NewsItem) :=
  (runs.map (runSource nowIso)).map Prod.fst

/-- The error entries the fan-out produces, in source order. -/
def sourceErrors (nowIso : String) (runs : List SourceRun) : List SourceError :=
  (runs.map (runSource nowIso)).filterMap Prod.snd

/-- src/server.js fetchAllData, lines 158-202: fan out over the sources,
flatten, sort descending by date, filter by the cutoff
dayjs().subtract(days, day).startOf(day), and build the result object.
now is the wall-clock instant of the run; nowIso and nowFmt are its
ISO-8601 and YYYY-MM-DD HH:mm:ss renderings used for the error timestamps
and updateTime. -/
def fetchAllData (runs : List SourceRun) (days : Int) (now : Instant)
    (nowIso nowFmt : String) : AggregateResult :=
  let errors := sourceErrors nowIso runs
  let allItems := (sourceItems nowIso runs).flatten
  let sorted := sortByDateDesc allItems
  let cutoffDate := (now.subtractDays days).startOfDay
  let filteredItems := sorted.filter (fun item => dateIsAfter item.date cutoffDate)
  { updateTime := nowFmt
    total := filteredItems.length
    allItems := filteredItems
    errors := if errors.length > 0 then some errors else none
    partialSuccess := errors.length > 0 && filteredItems.length > 0 }

/-- The mapper as the code runs it inside the fan-out: the rejection of one
source's fetch is caught inside the mapper itself (lines 164-175), so the
task always settles with a value. -/
def runSourceE (nowIso : String) (s : SourceRun) :
    Except String (List NewsItem × Option SourceError) :=
  match fetchContent s.title s.outcome with
  | .ok items => .ok (items, none)
  | .error msg => .ok ([], some ⟨s.title, msg, nowIso⟩)

/-- src/server.js fetchAllData with its outer try/catch (lines 161, 198-201)
kept: the body runs in the error monad and the catch rethrows, so the
function is total exactly when no step of the body can fail. -/
def fetchAllDataE (runs : List SourceRun) (days : Int) (now : Instant)
    (nowIso nowFmt : String) : Except String AggregateResult := do
  let pairs ← runs.mapM (runSourceE nowIso)
  let errors := pairs.filterMap Prod.snd
  let allItems := (pairs.map Prod.fst).flatten
  let sorted := sortByDateDesc allItems
  let cutoffDate := (now.subtractDays days).startOfDay
  let filteredItems := sorted.filter (fun item => dateIsAfter item.date cutoffDate)
  pure
    { updateTime := nowFmt
      total := filteredItems.length
      allItems := filteredItems
      errors := if errors.length > 0 then some errors else none
      partialSuccess := errors.length > 0 && filteredItems.length > 0 }

/-- The data object src/backend/server.js caches and serves
(lines 180-184): no errors or partialSuccess fields in that variant. -/
structure CachedData where
  updateTime : String
  total : Nat
  allItems : List NewsItem
  deriving Repr, DecidableEq

/-- The process-wide NEWS_CACHE slot of src/backend/server.js lines
151-155: the last result and the time it was computed, both initially
null. -/
structure NewsCache where
  data : Option CachedData
  lastUpdate : Option Int
  deriving Repr, DecidableEq

/-- src/backend/server.js fetchAllData, lines 157-200: serve the cached
entry when one exists, it is fresh (now - lastUpdate below
intervalMinutes * 60 * 1000, with a null lastUpdate read as 0) and the
read is not forced; otherwise run the refresh (the try block body,
embedded as the days-indexed computation `refresh`), store its result and
the current time in the cache, and on a raised refresh failure fall back
to the previous entry when one exists, else rethrow. Returns the response
together with the cache slot after the call. -/
def fetchAllDataCached (intervalMinutes : Int) (refresh : Int → Except String CachedData)
    (st : NewsCache) (forceRefresh : Bool) (days : Int) (nowMs : Int) :
    Except String CachedData × NewsCache :=
  let cacheAge := nowMs - (st.lastUpdate.getD 0)
  let cacheTimeout := intervalMinutes * 60 * 1000
  match st.data, (!forceRefresh && decide (cacheAge < cacheTimeout) : Bool) with
  | some cached, true => (.ok cached, st)
  | _, _ =>
    match refresh days with
    | .ok newData => (.ok newData, ⟨some newData, some nowMs⟩)
    | .error e =>
      match st.data with
      | some cached => (.ok cached, st)
      | none => (.error e, st)

/-- JavaScript parseInt on a string with no radix argument: skip leading
whitespace, an optional sign, then either a 0x/0X-prefixed hexadecimal
digit run or a decimal digit run; the longest such prefix is the value and
no digits at all is NaN (none). -/
def jsParseInt (s : String) : Option Int :=
  let cs := s.toList.dropWhile Char.isWhitespace
  let signed : Int × List Char :=
    match cs with
    | c :: rest =>
      if c = ('-') then (-1, rest) else if c = ('+') then (1, rest) else (1, cs)
    | [] => (1, [])
  let sign := signed.fst
  let body := signed.snd
  match body with
  | c0 :: cx :: rest =>
    if c0 = ('0') && (cx = ('x') || cx = ('X')) then
      let ds := rest.takeWhile (fun c => c.isDigit ||
        (('a') ≤ c && c ≤ ('f')) || (('A') ≤ c && c ≤ ('F')))
      if ds = [] then none
      else
        some (sign * Int.ofNat (ds.foldl (fun acc c =>
          acc * 16 + (if c.isDigit then c.toNat - 48
            else if ('a') ≤ c && c ≤ ('f') then c.toNat - 87 else c.toNat - 55)) 0))
    else
      let ds := body.takeWhile Char.isDigit
      if ds = [] then none
      else some (sign * Int.ofNat (ds.foldl (fun acc c => acc * 10 + (c.toNat - 48)) 0))
  | _ =>
    let ds := body.takeWhile Char.isDigit
    if ds = [] then none
    else some (sign * Int.ofNat (ds.foldl (fun acc c => acc * 10 + (c.toNat - 48)) 0))

/-- The response of the /api/news handler: an HTTP 400 with the structured
error body, or an HTTP 200 with the (possibly category-filtered) data. -/
inductive NewsResponse where
  | badRequest (error message : String)
  | ok (data : CachedData)
  deriving Repr, DecidableEq

/-- src/backend/server.js /api/news handler, lines 221-256, given the data
the cache returned for the request. daysParam and category are the query
parameters (none when absent). daysNum is parseInt(days) || CONFIG.days,
so a NaN or 0 parse falls back to the configured default; the validation
then tests days && (isNaN(daysNum) || daysNum < 1 || daysNum > 90), in
which isNaN(daysNum) can never hold since daysNum was just defaulted, and
an empty days string is falsy. A truthy category other than all filters
allItems by source, and total is recomputed from the final allItems. -/
def handleNewsRequest (cfgDays : Int) (daysParam category : Option String)
    (data : CachedData) : NewsResponse :=
  let daysNum : Int :=
    match daysParam with
    | none => cfgDays
    | some s =>
      match jsParseInt s with
      | none => cfgDays
      | some n => if n = 0 then cfgDays else n
  let daysTruthy : Bool :=
    match daysParam with
    | none => false
    | some s => !(s = "")
  if daysTruthy && (decide (daysNum < 1) || decide (daysNum > 90)) then
    .badRequest ("参数错误") ("天数必须是1到90之间的数字")
  else
    let filtered :=
      match category with
      | some c =>
        if !(c = "") && !(c = "all") then data.allItems.filter (fun item => item.source == c)
        else data.allItems
      | none => data.allItems
    .ok { data with allItems := filtered, total := filtered.length }

/-! ### Lemmas about the stable descending sort -/

theorem mem_insertByDateDesc {z x : NewsItem} {l : List NewsItem} :
    z ∈ insertByDateDesc x l ↔ z = x ∨ z ∈ l := by
  induction l with
  | nil => simp [insertByDateDesc]
  | cons y ys ih =>
    by_cases h : y.date ≤ x.date
    · simp [insertByDateDesc, h]
    · simp [insertByDateDesc, h, ih]
      tauto

theorem sorted_insertByDateDesc {x : NewsItem} {l : List NewsItem}
    (h : l.Pairwise (fun a b => b.date ≤ a.date)) :
    (insertByDateDesc x l).Pairwise (fun a b => b.date ≤ a.date) := by
  induction l with
  | nil => simp [insertByDateDesc]
  | cons y ys ih =>
    rw [List.pairwise_cons] at h
    by_cases hxy : y.date ≤ x.date
    · simp only [insertByDateDesc, if_pos hxy]
      rw [List.pairwise_cons]
      refine ⟨?_, List.pairwise_cons.mpr h⟩
      intro z hz
      rcases List.mem_cons.mp hz with h1 | h2
      · exact h1 ▸ hxy
      · exact le_trans (h.1 z h2) hxy
    · simp only [insertByDateDesc, if_neg hxy]
      rw [List.pairwise_cons]
      refine ⟨?_, ih h.2⟩
      intro z hz
      rcases mem_insertByDateDesc.mp hz with h1 | h2
      · exact h1 ▸ le_of_lt (lt_of_not_le hxy)
      · exact h.1 z h2

theorem sorted_sortByDateDesc (l : List NewsItem) :
    (sortByDateDesc l).Pairwise (fun a b => b.date ≤ a.date) := by
  induction l with
  | nil => exact List.Pairwise.nil
  | cons x xs ih => exact sorted_insertByDateDesc ih

theorem filter_dateEq_insertByDateDesc (d : Int) (x : NewsItem) (l : List NewsItem) :
    (insertByDateDesc x l).filter (fun z => z.date == d) =
      (x :: l).filter (fun z => z.date == d) := by
  induction l with
  | nil => rfl
  | cons y ys ih =>
    by_cases hxy : y.date ≤ x.date
    · simp only [insertByDateDesc, if_pos hxy]
    · simp only [insertByDateDesc, if_neg hxy, List.filter_cons] at ih ⊢
      by_cases hx : (x.date == d) = true
      · by_cases hy : (y.date == d) = true
        · exact absurd (le_of_eq ((eq_of_beq hy).trans (eq_of_beq hx).symm)) hxy
        · simp only [hx, hy, if_pos, if_neg, Bool.false_eq_true, ite_false, ite_true] at ih ⊢
          exact ih
      · by_cases hy : (y.date == d) = true
        · simp only [hx, hy, Bool.false_eq_true, ite_false, ite_true] at ih ⊢
          rw [ih]
        · simp only [hx, hy, Bool.false_eq_true, ite_false] at ih ⊢
          exact ih

theorem filter_dateEq_sortByDateDesc (d : Int) (l : List NewsItem) :
    (sortByDateDesc l).filter (fun z => z.date == d) =
      l.filter (fun z => z.date == d) := by
  induction l with
  | nil => rfl
  | cons x xs ih =>
    rw [sortByDateDesc, filter_dateEq_insertByDateDesc, List.filter_cons, List.filter_cons, ih]

/-! ### Structural lemmas about the Aggregator -/

theorem fetchAllData_allItems (runs : List SourceRun) (days : Int) (now : Instant)
    (nIso nFmt : String) :
    (fetchAllData runs days now nIso nFmt).allItems =
      (sortByDateDesc (sourceItems nIso runs).flatten).filter
        (fun item => dateIsAfter item.date ((now.subtractDays days).startOfDay)) := rfl

theorem fetchAllData_total (runs : List SourceRun) (days : Int) (now : Instant)
    (nIso nFmt : String) :
    (fetchAllData runs days now nIso nFmt).total =
      (fetchAllData runs days now nIso nFmt).allItems.length := rfl

theorem fetchAllData_errors (runs : List SourceRun) (days : Int) (now : Instant)
    (nIso nFmt : String) :
    (fetchAllData runs days now nIso nFmt).errors =
      if (sourceErrors nIso runs).length > 0 then some (sourceErrors nIso runs) else none := rfl

theorem fetchAllData_partialSuccess (runs : List SourceRun) (days : Int) (now : Instant)
    (nIso nFmt : String) :
    (fetchAllData runs days now nIso nFmt).partialSuccess =
      ((sourceErrors nIso runs).length > 0 &&
        (fetchAllData runs days now nIso nFmt).allItems.length > 0) := rfl

theorem runSource_of_error (nIso : String) {s : SourceRun} {msg : String}
    (h : fetchContent s.title s.outcome = .error msg) :
    runSource nIso s = ([], some ⟨s.title, msg, nIso⟩) := by
  unfold runSource
  rw [h]

/-! ### Claim theorems -/

/-- C1: in the Aggregator's fan-out each source's outcome is captured
independently: when the fetch of one source f fails with message msg, the
allItems of the run equal the allItems of the same run without f, and the
errors list is present and holds the entry {source := f.title, error :=
msg, timestamp := now} keyed by the failing source's title, instead of the
run aborting. -/
theorem C1_source_failure_isolated (xs ys : List SourceRun) (f : SourceRun)
    (msg : String) (days : Int) (now : Instant) (nIso nFmt : String)
    (hf : fetchContent f.title f.outcome = .error msg) :
    (fetchAllData (xs ++ f :: ys) days now nIso nFmt).allItems =
      (fetchAllData (xs ++ ys) days now nIso nFmt).allItems ∧
    ∃ es, (fetchAllData (xs ++ f :: ys) days now nIso nFmt).errors = some es ∧
      (⟨f.title, msg, nIso⟩ : SourceError) ∈ es := by
  have hrs := runSource_of_error nIso hf
  constructor
  · rw [fetchAllData_allItems, fetchAllData_allItems]
    simp [sourceItems, hrs]
  · rw [fetchAllData_errors]
    have herr : sourceErrors nIso (xs ++ f :: ys) =
        sourceErrors nIso xs ++ ⟨f.title, msg, nIso⟩ :: sourceErrors nIso ys := by
      simp [sourceErrors, hrs]
    rw [herr]
    refine ⟨sourceErrors nIso xs ++ ⟨f.title, msg, nIso⟩ :: sourceErrors nIso ys, ?_, ?_⟩
    · rw [if_pos]
      simp
    · simp

/-- C2 counterexample: a run with zero failing sources yields a result
whose errors field is absent, yet whose partialSuccess field is present
with the value false (src/server.js line 189 always sets it), not
undefined/omitted as the claim states; this also refutes the claimed
"false iff errors present and total == 0". -/
theorem C2_counterexample :
    (fetchAllData [] 3 ⟨20000, 0⟩ ("2025-01-01T00:00:00.000Z") ("2025-01-01 00:00:00")).errors
        = none ∧
    (fetchAllData [] 3 ⟨20000, 0⟩ ("2025-01-01T00:00:00.000Z")
        ("2025-01-01 00:00:00")).partialSuccess = false := by
  exact ⟨rfl, rfl⟩

/-- C2 amended: errors is absent (none) exactly when every source's fetch
succeeded and present when at least one failed, and partialSuccess is true
iff errors is present and total is positive; when there are no errors
partialSuccess is present with value false rather than omitted. -/
theorem C2_errors_partialSuccess (runs : List SourceRun) (days : Int)
    (now : Instant) (nIso nFmt : String) :
    ((fetchAllData runs days now nIso nFmt).errors = none ↔
      ∀ s ∈ runs, ∃ items, fetchContent s.title s.outcome = Except.ok items) ∧
    ((fetchAllData runs days now nIso nFmt).partialSuccess = true ↔
      (fetchAllData runs days now nIso nFmt).errors ≠ none ∧
        0 < (fetchAllData runs days now nIso nFmt).total) := by
  have hnone : (fetchAllData runs days now nIso nFmt).errors = none ↔
      sourceErrors nIso runs = [] := by
    rw [fetchAllData_errors]
    constructor
    · intro h
      by_cases hl : (sourceErrors nIso runs).length > 0
      · rw [if_pos hl] at h
        exact absurd h (by simp)
      · exact List.length_eq_zero.mp (Nat.eq_zero_of_not_pos hl)
    · intro h
      rw [h]
      simp
  constructor
  · rw [hnone]
    unfold sourceErrors
    rw [List.filterMap_eq_nil_iff]
    constructor
    · intro h s hs
      have := h (runSource nIso s) (List.mem_map_of_mem (runSource nIso) hs)
      unfold runSource at this
      cases hfc : fetchContent s.title s.outcome with
      | ok items => exact ⟨items, rfl⟩
      | error msg =>
        rw [hfc] at this
        exact absurd this (by simp)
    · intro h p hp
      rcases List.mem_map.mp hp with ⟨s, hs, hps⟩
      rcases h s hs with ⟨items, hfc⟩
      rw [← hps]
      unfold runSource
      rw [hfc]
  · rw [fetchAllData_partialSuccess, fetchAllData_total]
    rw [Bool.and_eq_true, decide_eq_true_iff, decide_eq_true_iff]
    constructor
    · intro ⟨hl, h2⟩
      refine ⟨?_, h2⟩
      intro hn
      rw [hnone] at hn
      rw [hn] at hl
      simp at hl
    · intro ⟨hp, h2⟩
      refine ⟨?_, h2⟩
      by_cases hnil : sourceErrors nIso runs = []
      · exact absurd (hnone.mpr hnil) hp
      · exact List.length_pos.mpr hnil

/-- C3: for every valid days value, every item of the aggregate result has
a date strictly after start-of-day(now) minus days days (so no item with
an earlier-or-equal date appears), and total equals the length of the
filtered allItems list. -/
theorem C3_cutoff_filter (runs : List SourceRun) (days : Int) (now : Instant)
    (nIso nFmt : String) (h1 : 1 ≤ days) (h2 : days ≤ 90) :
    (∀ item ∈ (fetchAllData runs days now nIso nFmt).allItems,
      dateIsAfter item.date ((now.startOfDay).subtractDays days) = true) ∧
    (fetchAllData runs days now nIso nFmt).total =
      (fetchAllData runs days now nIso nFmt).allItems.length := by
  refine ⟨?_, rfl⟩
  intro item hmem
  rw [fetchAllData_allItems] at hmem
  have hcomm : (now.startOfDay).subtractDays days = (now.subtractDays days).startOfDay := rfl
  rw [hcomm]
  simpa using (List.mem_filter.mp hmem).2

/-- C4: allItems of every aggregate result is sorted non-increasing by
date, and for every date value d the items of that date appear in exactly
the order the concatenation of the (date-filtered) per-source item lists
gives them — equal dates retain their relative concatenation order, with
no secondary sort key applied. -/
theorem C4_sorted_stable (runs : List SourceRun) (days : Int) (now : Instant)
    (nIso nFmt : String) :
    (fetchAllData runs days now nIso nFmt).allItems.Pairwise
      (fun a b => b.date ≤ a.date) ∧
    ∀ d : Int,
      (fetchAllData runs days now nIso nFmt).allItems.filter (fun z => z.date == d) =
        ((sourceItems nIso runs).flatten.filter
            (fun z => dateIsAfter z.date ((now.subtractDays days).startOfDay))).filter
          (fun z => z.date == d) := by
  constructor
  · rw [fetchAllData_allItems]
    exact List.Pairwise.filter _ (sorted_sortByDateDesc _)
  · intro d
    rw [fetchAllData_allItems]
    set cutoff := (now.subtractDays days).startOfDay with hcut
    set l := (sourceItems nIso runs).flatten with hl
    rw [List.filter_filter, List.filter_filter]
    have hfun : ∀ z : NewsItem,
        ((z.date == d) && dateIsAfter z.date cutoff) =
          ((z.date == d) && dateIsAfter d cutoff) := by
      intro z
      by_cases hz : (z.date == d) = true
      · rw [eq_of_beq hz]
      · rw [Bool.eq_false_iff.mpr hz]
        simp
    rw [List.filter_congr (fun z _ => hfun z), List.filter_congr (fun z _ => hfun z)]
    by_cases hc : dateIsAfter d cutoff = true
    · simp only [hc, Bool.and_true]
      exact filter_dateEq_sortByDateDesc d l
    · rw [Bool.eq_false_iff.mpr hc]
      simp

/-- A malformed element in the sense of the Extractor contract: its date
sub-element is missing, its date text matches none of the strict formats,
its title or href sub-element is missing, or the exception of its URL
resolution is the one the per-element catch swallows. -/
def malformedElement (e : RawElement) : Prop :=
  e.dateText = none ∨ (∃ t, e.dateText = some t ∧ parseDateStrict t = none) ∨
    e.hasTitle = false ∨ e.hasHref = false ∨ e.resolvedUrl = none

theorem processElement_eq_none {title : String} {e : RawElement}
    (h : malformedElement e) : processElement title e = none := by
  rcases h with h | ⟨t, ht, hp⟩ | h | h | h
  · simp [processElement, h]
  · simp [processElement, ht, hp]
  · cases hdt : e.dateText with
    | none => simp [processElement, hdt]
    | some t =>
      cases hp : parseDateStrict t with
      | none => simp [processElement, hdt, hp]
      | some dt => simp [processElement, hdt, hp, h]
  · cases hdt : e.dateText with
    | none => simp [processElement, hdt]
    | some t =>
      cases hp : parseDateStrict t with
      | none => simp [processElement, hdt, hp]
      | some dt => simp [processElement, hdt, hp, h]
  · cases hdt : e.dateText with
    | none => simp [processElement, hdt]
    | some t =>
      cases hp : parseDateStrict t with
      | none => simp [processElement, hdt, hp]
      | some dt =>
        cases hb : (e.hasTitle && e.hasHref) <;> simp [processElement, hdt, hp, hb, h]

/-- C5: the Extractor never raises for an individual malformed item: a
malformed element anywhere in the document is skipped alone and the
remaining elements are extracted, a 200 response over such a document
still yields the ok outcome with those items, and an empty item list is an
ok outcome, not an error. -/
theorem C5_malformed_item_skipped (title : String) (xs ys : List RawElement)
    (e : RawElement) (h : malformedElement e) :
    extractItems title (xs ++ e :: ys) = extractItems title xs ++ extractItems title ys ∧
    (∀ statusText, fetchContent title (HttpOutcome.response 200 statusText (xs ++ e :: ys)) =
      Except.ok (extractItems title xs ++ extractItems title ys)) ∧
    (∀ statusText, fetchContent title (HttpOutcome.response 200 statusText []) =
      Except.ok []) := by
  have hskip : extractItems title (xs ++ e :: ys) =
      extractItems title xs ++ extractItems title ys := by
    unfold extractItems
    rw [List.filterMap_append, List.filterMap_cons, processElement_eq_none h]
  refine ⟨hskip, ?_, fun statusText => rfl⟩
  intro statusText
  show Except.ok (extractItems title (xs ++ e :: ys)) = _
  rw [hskip]

/-- C6: a non-forced cache read with an existing entry younger than the
TTL returns the cached result unchanged and leaves the cache slot as it
was, for every days argument — including one differing from the window the
cached entry was built with (the refresh computation is never consulted). -/
theorem C6_cache_hit_ignores_days (intervalMinutes : Int)
    (refresh : Int → Except String CachedData) (st : NewsCache)
    (cached : CachedData) (days nowMs : Int)
    (hdata : st.data = some cached)
    (hfresh : nowMs - st.lastUpdate.getD 0 < intervalMinutes * 60 * 1000) :
    fetchAllDataCached intervalMinutes refresh st false days nowMs =
      (Except.ok cached, st) := by
  unfold fetchAllDataCached
  rw [hdata]
  simp [hfresh]

/-- C7: when the refresh computation raises a hard failure and the refresh
path is taken, the previous cache entry, when one exists, is returned as a
degraded fallback with the cache slot unchanged; the failure propagates to
the caller exactly when no previous entry exists. -/
theorem C7_error_fallback (intervalMinutes : Int)
    (refresh : Int → Except String CachedData) (st : NewsCache)
    (forceRefresh : Bool) (days nowMs : Int) (e : String)
    (hmiss : forceRefresh = true ∨
      ¬(nowMs - st.lastUpdate.getD 0 < intervalMinutes * 60 * 1000))
    (herr : refresh days = .error e) :
    (∀ cached, st.data = some cached →
      fetchAllDataCached intervalMinutes refresh st forceRefresh days nowMs =
        (Except.ok cached, st)) ∧
    (st.data = none →
      fetchAllDataCached intervalMinutes refresh st forceRefresh days nowMs =
        (Except.error e, st)) := by
  have hbool : (!forceRefresh &&
      decide (nowMs - st.lastUpdate.getD 0 < intervalMinutes * 60 * 1000)) = false := by
    rcases hmiss with h | h
    · rw [h]
      rfl
    · rw [decide_eq_false h]
      simp
  constructor
  · intro cached hdata
    unfold fetchAllDataCached
    rw [hdata]
    simp only [hbool, herr]
  · intro hdata
    unfold fetchAllDataCached
    rw [hdata]
    simp only [hbool, herr]

/-- C8 counterexample: the status 204 is accepted by validateStatus
(below 400), yet fetchContent does not parse the response — only a status
of exactly 200 reaches the parser, every other accepted status is thrown
as the source-level fetch error. -/
theorem C8_counterexample :
    fetchContent ("A") (HttpOutcome.response 204 ("No Content") []) =
      Except.error ("抓取失败 (HTTP status: 204)") := rfl

/-- C8 amended: a response is parsed for items exactly when its status is
200; a network-level failure, a status of 400 or above, and an accepted
status other than 200 all make the Extractor raise a SourceFetchError for
the source. -/
theorem C8_only_200_parsed (title : String) (o : HttpOutcome) :
    (∀ statusText doc, fetchContent title (HttpOutcome.response 200 statusText doc) =
      Except.ok (extractItems title doc)) ∧
    (∀ items, fetchContent title o = Except.ok items →
      ∃ statusText doc, o = HttpOutcome.response 200 statusText doc ∧
        items = extractItems title doc) := by
  refine ⟨fun statusText doc => rfl, ?_⟩
  intro items hok
  cases o with
  | netError msg => exact absurd hok (by simp [fetchContent])
  | response status statusText doc =>
    by_cases h4 : status < 400
    · by_cases h2 : (status == 200) = true
      · have hs : status = 200 := eq_of_beq h2
        subst hs
        have h200 : fetchContent title (HttpOutcome.response 200 statusText doc) =
            Except.ok (extractItems title doc) := rfl
        rw [h200] at hok
        exact ⟨statusText, doc, rfl, (Except.ok.inj hok).symm⟩
      · simp [fetchContent, h4, h2] at hok
    · simp [fetchContent, h4] at hok

/-- C9: the code does not respond 400 for every days parameter that is not
an integer in [1, 90]. At days=abc, parseInt gives NaN, which the default
in parseInt(days) || CONFIG.days silently replaces with the configured
value 3, the isNaN branch of the validation can therefore never fire, and
the handler serves the data with HTTP 200 (total recomputed) instead of
the claimed HTTP 400 error body. -/
theorem C9_invalid_days_not_rejected :
    handleNewsRequest 3 (some ("abc")) none ⟨("2025-01-01 00:00:00"), 5, []⟩ =
      NewsResponse.ok ⟨("2025-01-01 00:00:00"), 0, []⟩ := by
  rfl

theorem mapM_runSourceE (nIso : String) (runs : List SourceRun) :
    runs.mapM (runSourceE nIso) = Except.ok (runs.map (runSource nIso)) := by
  induction runs with
  | nil => rfl
  | cons s rest ih =>
    have hs : runSourceE nIso s = Except.ok (runSource nIso s) := by
      unfold runSourceE runSource
      cases fetchContent s.title s.outcome <;> rfl
    rw [List.mapM_cons, hs, ih]
    rfl

/-- C10: the Aggregator is total. Every per-source rejection is caught
inside the fan-out mapper and converted into an error entry plus an empty
item list, so the function with its outer try/catch kept always settles
with ok of the aggregate result and the outer rethrow branch is
unreachable. -/
theorem C10_fetchAllData_total (runs : List SourceRun) (days : Int) (now : Instant)
    (nIso nFmt : String) :
    fetchAllDataE runs days now nIso nFmt =
      Except.ok (fetchAllData runs days now nIso nFmt) := by
  unfold fetchAllDataE fetchAllData
  rw [mapM_runSourceE]
  rfl

/-! ### Witnesses: the hypotheses of the claim theorems discharged at
concrete inputs -/

/-- C1 witness: source A succeeds with one item, source B fails with a
network error; the run with B has the same allItems as the run without it
and carries the error entry for B. -/
theorem C1_witness :
    fetchContent ("B") (HttpOutcome.netError ("boom")) =
      Except.error ("抓取失败 (boom)") ∧
    ((fetchAllData ([⟨("A"), HttpOutcome.response 200 ("OK")
          [⟨some ("2024/10/08"), true, some ("Hello"), (""), true,
            some ("https://x/a")⟩]⟩] ++
        (⟨("B"), HttpOutcome.netError ("boom")⟩ : SourceRun) :: []) 3 ⟨20005, 777⟩
        ("iso") ("fmt")).allItems =
      (fetchAllData ([⟨("A"), HttpOutcome.response 200 ("OK")
          [⟨some ("2024/10/08"), true, some ("Hello"), (""), true,
            some ("https://x/a")⟩]⟩] ++ []) 3 ⟨20005, 777⟩
        ("iso") ("fmt")).allItems ∧
    ∃ es, (fetchAllData ([⟨("A"), HttpOutcome.response 200 ("OK")
          [⟨some ("2024/10/08"), true, some ("Hello"), (""), true,
            some ("https://x/a")⟩]⟩] ++
        (⟨("B"), HttpOutcome.netError ("boom")⟩ : SourceRun) :: []) 3 ⟨20005, 777⟩
        ("iso") ("fmt")).errors = some es ∧
      (⟨("B"), ("抓取失败 (boom)"), ("iso")⟩ : SourceError) ∈ es) :=
  ⟨rfl, C1_source_failure_isolated
    [⟨("A"), HttpOutcome.response 200 ("OK")
      [⟨some ("2024/10/08"), true, some ("Hello"), (""), true, some ("https://x/a")⟩]⟩]
    [] ⟨("B"), HttpOutcome.netError ("boom")⟩ ("抓取失败 (boom)") 3 ⟨20005, 777⟩
    ("iso") ("fmt") rfl⟩

/-- C3 witness: a valid days value 3, one source with one item dated
2024/10/08 (ordinal 20004) and now on day 20005: the item is in the
window and the result satisfies both conjuncts. -/
theorem C3_witness :
    ((1 : Int) ≤ 3 ∧ (3 : Int) ≤ 90) ∧
    ((∀ item ∈ (fetchAllData [⟨("A"), HttpOutcome.response 200 ("OK")
          [⟨some ("2024/10/08"), true, some ("Hello"), (""), true,
            some ("https://x/a")⟩]⟩] 3 ⟨20005, 777⟩ ("iso") ("fmt")).allItems,
        dateIsAfter item.date (((Instant.mk 20005 777).startOfDay).subtractDays 3) = true) ∧
      (fetchAllData [⟨("A"), HttpOutcome.response 200 ("OK")
          [⟨some ("2024/10/08"), true, some ("Hello"), (""), true,
            some ("https://x/a")⟩]⟩] 3 ⟨20005, 777⟩ ("iso") ("fmt")).total =
        (fetchAllData [⟨("A"), HttpOutcome.response 200 ("OK")
          [⟨some ("2024/10/08"), true, some ("Hello"), (""), true,
            some ("https://x/a")⟩]⟩] 3 ⟨20005, 777⟩ ("iso") ("fmt")).allItems.length) :=
  ⟨⟨by decide, by decide⟩, C3_cutoff_filter
    [⟨("A"), HttpOutcome.response 200 ("OK")
      [⟨some ("2024/10/08"), true, some ("Hello"), (""), true, some ("https://x/a")⟩]⟩]
    3 ⟨20005, 777⟩ ("iso") ("fmt") (by decide) (by decide)⟩

/-- C5 witness: an element with a missing date sub-element between two
well-formed ones is skipped alone. -/
theorem C5_witness :
    malformedElement ⟨none, true, none, ("x"), true, some ("u")⟩ ∧
    (extractItems ("A")
        ([⟨some ("2024/10/08"), true, some ("Hello"), (""), true, some ("https://x/a")⟩] ++
          (⟨none, true, none, ("x"), true, some ("u")⟩ : RawElement) ::
            [⟨some ("2024-10-09"), true, none, ("World"), true, some ("https://x/b")⟩]) =
      extractItems ("A")
          [⟨some ("2024/10/08"), true, some ("Hello"), (""), true, some ("https://x/a")⟩] ++
        extractItems ("A")
          [⟨some ("2024-10-09"), true, none, ("World"), true, some ("https://x/b")⟩] ∧
    (∀ statusText, fetchContent ("A") (HttpOutcome.response 200 statusText
        ([⟨some ("2024/10/08"), true, some ("Hello"), (""), true, some ("https://x/a")⟩] ++
          (⟨none, true, none, ("x"), true, some ("u")⟩ : RawElement) ::
            [⟨some ("2024-10-09"), true, none, ("World"), true, some ("https://x/b")⟩])) =
      Except.ok (extractItems ("A")
          [⟨some ("2024/10/08"), true, some ("Hello"), (""), true, some ("https://x/a")⟩] ++
        extractItems ("A")
          [⟨some ("2024-10-09"), true, none, ("World"), true, some ("https://x/b")⟩])) ∧
    (∀ statusText, fetchContent ("A") (HttpOutcome.response 200 statusText []) =
      Except.ok [])) :=
  ⟨Or.inl rfl, C5_malformed_item_skipped ("A")
    [⟨some ("2024/10/08"), true, some ("Hello"), (""), true, some ("https://x/a")⟩]
    [⟨some ("2024-10-09"), true, none, ("World"), true, some ("https://x/b")⟩]
    ⟨none, true, none, ("x"), true, some ("u")⟩ (Or.inl rfl)⟩

/-- C6 witness: a cache entry from time 100 read un-forced at time 200
with a 30-minute TTL is returned unchanged for the differing days value
45, with the refresh computation (here one that would fail) never
consulted. -/
theorem C6_witness :
    (NewsCache.mk (some ⟨("cached"), 0, []⟩) (some 100)).data =
      some ⟨("cached"), 0, []⟩ ∧
    (200 : Int) - (NewsCache.mk (some ⟨("cached"), 0, []⟩) (some 100)).lastUpdate.getD 0 <
      30 * 60 * 1000 ∧
    fetchAllDataCached 30 (fun _ => Except.error ("hard failure"))
        (NewsCache.mk (some ⟨("cached"), 0, []⟩) (some 100)) false 45 200 =
      (Except.ok ⟨("cached"), 0, []⟩,
        NewsCache.mk (some ⟨("cached"), 0, []⟩) (some 100)) :=
  ⟨rfl, by decide, C6_cache_hit_ignores_days 30 (fun _ => Except.error ("hard failure"))
    (NewsCache.mk (some ⟨("cached"), 0, []⟩) (some 100)) ⟨("cached"), 0, []⟩ 45 200
    rfl (by decide)⟩

/-- C7 witness: a forced refresh whose aggregation raises while a previous
entry exists returns that entry with the cache unchanged. -/
theorem C7_witness :
    ((true = true) ∨
      ¬((500 : Int) -
          (NewsCache.mk (some ⟨("cached"), 0, []⟩) (some 0)).lastUpdate.getD 0 <
        30 * 60 * 1000)) ∧
    (fun _ : Int => (Except.error ("hard failure") : Except String CachedData)) 7 =
      Except.error ("hard failure") ∧
    ((∀ cached, (NewsCache.mk (some ⟨("cached"), 0, []⟩) (some 0)).data = some cached →
      fetchAllDataCached 30 (fun _ => Except.error ("hard failure"))
          (NewsCache.mk (some ⟨("cached"), 0, []⟩) (some 0)) true 7 500 =
        (Except.ok cached, NewsCache.mk (some ⟨("cached"), 0, []⟩) (some 0))) ∧
    ((NewsCache.mk (some ⟨("cached"), 0, []⟩) (some 0)).data = none →
      fetchAllDataCached 30 (fun _ => Except.error ("hard failure"))
          (NewsCache.mk (some ⟨("cached"), 0, []⟩) (some 0)) true 7 500 =
        (Except.error ("hard failure"), NewsCache.mk (some ⟨("cached"), 0, []⟩) (some 0)))) :=
  ⟨Or.inl rfl, rfl, C7_error_fallback 30 (fun _ => Except.error ("hard failure"))
    (NewsCache.mk (some ⟨("cached"), 0, []⟩) (some 0)) true 7 500 ("hard failure")
    (Or.inl rfl) rfl⟩

end Etz
